import Mathlib

/-!
# weather-radar: colour-band masks, mask combination, cropping and coverage

A shallow embedding of `src/main.go`.

Modelling decisions (all about the `gocv` library that the program calls, whose
code is not part of the repository):

* a `gocv.Mat` is a dense grid, embedded as a list of rows (`List (List α)`);
  a three-channel 8-bit image has cells of type `Vec3b`, a one-channel 8-bit
  mask has cells of type `Nat` (values `0..255`);
* `gocv.CvtColor(_, _, ColorBGRToHSV)` works pixel by pixel; its pixel function
  is a parameter `cvt` of the embedding (its arithmetic is library-internal);
* `gocv.InRangeWithScalar`, `gocv.Add`, `gocv.CountNonZero`,
  `gocv.BitwiseAndWithMask` and `Mat.Region` follow their documented contracts
  for 8-bit matrices: inclusive range test giving `255`/`0`, saturating
  per-cell sum, number of non-zero cells, masked copy, rectangular view;
* a `float64` value is embedded as `F64`: the rational a finite value denotes, or
  `nan`/`inf` for the outcome of a division by zero. Every `float64` operation
  rounds its exact result with a function `rnd : ℚ → ℚ`, a parameter of the
  embedding: `roundF64` (round to nearest, ties to even, 53 significant bits) is
  the arithmetic of the program, `id` is the same arithmetic taken as exact. The
  exponent range is not modelled: the values that occur are 0 or lie between
  `2^-64` and 100;
* Go `int` values are `Int` (no overflow occurs at the magnitudes involved).
-/

namespace WeatherRadar

/-! ## Data model -/

/-- The Go struct `RadarIntensity`: two arrays `[3]int` of HSV bounds. -/
structure RadarIntensity where
  Min : Fin 3 → Int
  Max : Fin 3 → Int

/-- Band 9.5 - 29.0 dBz. -/
def RadarIntensityLow : RadarIntensity := ⟨![40, 100, 100], ![70, 255, 255]⟩
/-- Band 29.0 - 44.0 dBz. -/
def RadarIntensityMid : RadarIntensity := ⟨![16, 100, 100], ![39, 255, 255]⟩
/-- Band 44.0+ dBz; its hue range wraps around. -/
def RadarIntensityHigh : RadarIntensity := ⟨![140, 100, 100], ![15, 255, 255]⟩

/-- Cropping coordinates. -/
def startX : Int := 240
def startY : Int := 360
def endX : Int := startX + 300
def endY : Int := startY + 200

/-- A pixel of a three-channel 8-bit matrix (channel values `0..255`). -/
structure Vec3b where
  c0 : Nat
  c1 : Nat
  c2 : Nat
deriving DecidableEq, Repr

/-- A three-channel 8-bit matrix, as a list of rows. -/
abbrev Image := List (List Vec3b)

/-- A one-channel 8-bit matrix (a mask), as a list of rows. -/
abbrev Mask := List (List Nat)

/-- The method `Mat.Rows`. -/
def Rows {α : Type} (m : List (List α)) : Nat := m.length

/-- The method `Mat.Cols`: the common length of the rows (0 for a matrix without rows). -/
def Cols {α : Type} (m : List (List α)) : Nat :=
  match m with
  | [] => 0
  | row :: _ => row.length

/-- The matrix `m` is a dense grid of `H` rows and `W` columns. -/
def HasDims {α : Type} (m : List (List α)) (H W : Nat) : Prop :=
  m.length = H ∧ ∀ row ∈ m, row.length = W

instance {α : Type} (m : List (List α)) (H W : Nat) : Decidable (HasDims m H W) := by
  unfold HasDims; infer_instance

/-- The cell of a mask at row `r`, column `c`, or `none` outside the mask. -/
def cellAt? {α : Type} (m : List (List α)) (r c : Nat) : Option α :=
  (m[r]?).bind (fun row => row[c]?)

/-- Every cell of the mask is 0 or 255. -/
def IsBinary (m : Mask) : Prop := ∀ row ∈ m, ∀ x ∈ row, x = 0 ∨ x = 255

instance (m : Mask) : Decidable (IsBinary m) := by
  unfold IsBinary; infer_instance

/-- The type `gocv.Scalar`: four values, integral here (the program fills them with
`float64(int)` and integer constants); a 3-channel test reads the first three. -/
structure Scalar where
  Val1 : Int
  Val2 : Int
  Val3 : Int
  Val4 : Int

/-- The constructor `gocv.NewScalar`. -/
def NewScalar (v1 v2 v3 v4 : Int) : Scalar := ⟨v1, v2, v3, v4⟩

/-- Errors and abnormal ends of the pipeline. -/
inductive Err where
  /-- An error returned by `getRadarImage`. -/
  | fetch (msg : String)
  /-- The error `fmt.Errorf("invalid cropping coordinates")`. -/
  | invalidCropping
  /-- A failed assertion inside the native library (`Mat.Region` outside the matrix). -/
  | nativeAssertion
deriving DecidableEq, Repr

/-- A `float64` value: a finite value, as the rational it denotes, an infinity or a NaN. -/
inductive F64 where
  | num (q : ℚ)
  | inf
  | nan
deriving DecidableEq

/-! ## Library operations -/

/-- The per-cell test of `gocv.InRangeWithScalar` on a 3-channel 8-bit matrix. -/
def inRangeCell (lower upper : Scalar) (p : Vec3b) : Nat :=
  if lower.Val1 ≤ (p.c0 : Int) ∧ (p.c0 : Int) ≤ upper.Val1 ∧
     lower.Val2 ≤ (p.c1 : Int) ∧ (p.c1 : Int) ≤ upper.Val2 ∧
     lower.Val3 ≤ (p.c2 : Int) ∧ (p.c2 : Int) ≤ upper.Val3 then 255 else 0

/-- The call `gocv.InRangeWithScalar(src, lower, upper, &dst)`. -/
def InRangeWithScalar (src : Image) (lower upper : Scalar) : Mask :=
  src.map (fun row => row.map (inRangeCell lower upper))

/-- Saturating 8-bit sum of two cells. -/
def satAdd (a b : Nat) : Nat := min (a + b) 255

/-- The call `gocv.Add(src1, src2, &dst)` on two 8-bit masks of the same size. -/
def Add (src1 src2 : Mask) : Mask :=
  List.zipWith (fun r1 r2 => List.zipWith satAdd r1 r2) src1 src2

/-- The call `gocv.CvtColor(src, &dst, code)`, with the pixel function of the code given. -/
def CvtColor (cvt : Vec3b → Vec3b) (src : Image) : Image :=
  src.map (fun row => row.map cvt)

/-- The call `gocv.CountNonZero(src)`. -/
def CountNonZero (src : Mask) : Nat :=
  (src.map (fun row => row.countP (fun x => decide (x ≠ 0)))).sum

/-- The call `gocv.BitwiseAndWithMask(src1, src2, &dst, mask)`: the bitwise conjunction
where the mask is non-zero, zero elsewhere. -/
def BitwiseAndWithMask (src1 src2 : Image) (mask : Mask) : Image :=
  List.zipWith (fun (rp : List Vec3b × List Vec3b) (rm : List Nat) =>
      List.zipWith (fun (pq : Vec3b × Vec3b) (m : Nat) =>
          if m ≠ 0 then (⟨pq.1.c0 &&& pq.2.c0, pq.1.c1 &&& pq.2.c1, pq.1.c2 &&& pq.2.c2⟩ : Vec3b)
          else ⟨0, 0, 0⟩)
        (List.zip rp.1 rp.2) rm)
    (List.zip src1 src2) mask

/-- The pixel function of `ColorBGRToHSV` on achromatic pixels (`b = g = r`): hue 0,
saturation 0, value the largest channel. It serves to run the pipeline on grey test images;
on other pixels only its value channel is that of the library. -/
def cvtGrey (p : Vec3b) : Vec3b := ⟨0, 0, max p.c0 (max p.c1 p.c2)⟩

/-- The pixel function of `ColorBGRToHSV` on achromatic pixels and on pure green: the BGR
pixel `(0, 255, 0)` has hue 120 degrees, stored halved as 60, and full saturation and
value. -/
def cvtGreyGreen (p : Vec3b) : Vec3b :=
  if p = ⟨0, 255, 0⟩ then ⟨60, 255, 255⟩ else cvtGrey p

/-- A row of 540 pixels: black, but pure green in the columns 240 to 256. -/
def greenRow : List Vec3b :=
  List.replicate 240 ⟨0, 0, 0⟩ ++ List.replicate 17 ⟨0, 255, 0⟩ ++
    List.replicate 283 ⟨0, 0, 0⟩

/-- An image of 560 rows and 540 columns: black, but for 17 pure green pixels in row
360, columns 240 to 256 (inside the configured region). -/
def greenImage : Image :=
  List.replicate 360 (List.replicate 540 ⟨0, 0, 0⟩) ++ [greenRow] ++
    List.replicate 199 (List.replicate 540 ⟨0, 0, 0⟩)

/-- The mask of 200 rows and 300 columns with 17 cells set, at the start of row 0. -/
def greenCrop : Mask :=
  (List.replicate 17 255 ++ List.replicate 283 0) ::
    List.replicate 199 (List.replicate 300 0)

/-- The Go type `image.Rectangle`. -/
structure Rectangle where
  MinX : Int
  MinY : Int
  MaxX : Int
  MaxY : Int
deriving DecidableEq, Repr

/-- The function `image.Rect`: the coordinates are swapped where needed so that
the rectangle is well-formed. -/
def Rect (x0 y0 x1 y1 : Int) : Rectangle :=
  let (x0, x1) := if x0 > x1 then (x1, x0) else (x0, x1)
  let (y0, y1) := if y0 > y1 then (y1, y0) else (y0, y1)
  ⟨x0, y0, x1, y1⟩

/-- The method `Mat.Region`: the view of the rectangle `[y, y+height) × [x, x+width)`;
the native constructor asserts that the rectangle lies inside the matrix. -/
def Region {α : Type} (m : List (List α)) (rio : Rectangle) : Except Err (List (List α)) :=
  let x := rio.MinX
  let y := rio.MinY
  let width := rio.MaxX - rio.MinX
  let height := rio.MaxY - rio.MinY
  if 0 ≤ x ∧ 0 ≤ width ∧ x + width ≤ (Cols m : Int) ∧
     0 ≤ y ∧ 0 ≤ height ∧ y + height ≤ (Rows m : Int) then
    .ok (((m.drop y.toNat).take height.toNat).map
          (fun row => (row.drop x.toNat).take width.toNat))
  else .error Err.nativeAssertion

/-- Rounding of a rational to the nearest integer, ties to the even one. -/
def roundHalfEven (x : ℚ) : ℤ :=
  let f := ⌊x⌋
  if x - f < 1 / 2 then f
  else if 1 / 2 < x - f then f + 1
  else if f % 2 = 0 then f else f + 1

/-- Rounding of a rational to `float64` precision: the nearest multiple of
`2 ^ (e - 52)`, ties to even, where `2 ^ e <= |q| < 2 ^ (e + 1)`. -/
def roundF64 (q : ℚ) : ℚ :=
  if q = 0 then 0
  else
    let ulp : ℚ := 2 ^ (Int.log 2 |q| - 52)
    (roundHalfEven (q / ulp) : ℚ) * ulp

/-- Division of two `float64` values that hold non-negative integers (the conversions
`float64(count)` and `float64(width * height)`, exact below `2^53`); `rnd` rounds the
quotient. -/
def fdiv (rnd : ℚ → ℚ) (a b : Nat) : F64 :=
  if b = 0 then (if a = 0 then F64.nan else F64.inf) else F64.num (rnd ((a : ℚ) / (b : ℚ)))

/-- Multiplication of a `float64` by a finite positive constant; `rnd` rounds the
product. -/
def fmul (rnd : ℚ → ℚ) (x : F64) (k : ℚ) : F64 :=
  match x with
  | F64.num q => F64.num (rnd (q * k))
  | F64.inf => F64.inf
  | F64.nan => F64.nan

/-! ## The functions of `main.go` -/

/-- The function `getDBzMask`. -/
def getDBzMask (cvt : Vec3b → Vec3b) (img : Image) (radarIntensity : RadarIntensity) :
    Except Err Mask :=
  let hsv := CvtColor cvt img
  -- check for hue wrap-around
  if radarIntensity.Min 0 > radarIntensity.Max 0 then
    let lower1 := NewScalar (radarIntensity.Min 0) (radarIntensity.Min 1) (radarIntensity.Min 2) 0
    let upper1 := NewScalar 180 (radarIntensity.Max 1) (radarIntensity.Max 2) 0
    let mask1 := InRangeWithScalar hsv lower1 upper1
    let lower2 := NewScalar 0 (radarIntensity.Min 1) (radarIntensity.Min 2) 0
    let upper2 := NewScalar (radarIntensity.Max 0) (radarIntensity.Max 1) (radarIntensity.Max 2) 0
    let mask2 := InRangeWithScalar hsv lower2 upper2
    .ok (Add mask1 mask2)
  else
    let lower := NewScalar (radarIntensity.Min 0) (radarIntensity.Min 1) (radarIntensity.Min 2) 0
    let upper := NewScalar (radarIntensity.Max 0) (radarIntensity.Max 1) (radarIntensity.Max 2) 0
    .ok (InRangeWithScalar hsv lower upper)

/-- The function `getWhitePercentage`; `rnd` is the rounding of the `float64`
arithmetic. -/
def getWhitePercentage (rnd : ℚ → ℚ) (img : Mask) : F64 :=
  let width := Cols img
  let height := Rows img
  let size := width * height
  let whiteArea := CountNonZero img
  fmul rnd (fdiv rnd whiteArea size) 100

/-- The function `getCloudsPercentage`, for the outcome `radar` of `getRadarImage`,
the three bands and the cropping coordinates (package variables of the program).
The drawing and the writing of files do not touch the returned value; `rnd` is the
rounding of the `float64` arithmetic. -/
def getCloudsPercentage (rnd : ℚ → ℚ) (cvt : Vec3b → Vec3b) (radar : Except Err Image)
    (low mid high : RadarIntensity) (startX startY endX endY : Int) (_saveImage : Bool) :
    Except Err F64 := do
  let img ← radar
  -- Generate masks for different intensity levels
  let maskLow ← getDBzMask cvt img low
  let maskMid ← getDBzMask cvt img mid
  let maskHigh ← getDBzMask cvt img high
  -- Combine all masks
  let combinedMask := Add maskLow maskMid
  let combinedMask := Add combinedMask maskHigh
  let cloudsArea := BitwiseAndWithMask img img combinedMask
  -- Crop the image
  let roi := Rect startX startY endX endY
  if startX < 0 ∨ startY < 0 ∨ endX > (Cols cloudsArea : Int) ∨ endY > (Rows cloudsArea : Int) then
    throw Err.invalidCropping
  let maskCropped ← Region combinedMask roi
  -- Calculate the percentage of white pixels in the cropped mask
  let cloudsPercent := getWhitePercentage rnd maskCropped
  return cloudsPercent

/-! ## Structural lemmas on grids -/

theorem cellAt?_map {α β : Type} (f : α → β) (m : List (List α)) (r c : Nat) :
    cellAt? (m.map (fun row => row.map f)) r c = (cellAt? m r c).map f := by
  unfold cellAt?
  rw [List.getElem?_map]
  cases m[r]? <;> simp [List.getElem?_map]

theorem cellAt?_zipWith {α β γ : Type} (f : α → β → γ) (a : List (List α)) (b : List (List β))
    (r c : Nat) (x : α) (y : β) (ha : cellAt? a r c = some x) (hb : cellAt? b r c = some y) :
    cellAt? (List.zipWith (fun r1 r2 => List.zipWith f r1 r2) a b) r c = some (f x y) := by
  unfold cellAt? at *
  cases hra : a[r]? with
  | none => simp [hra] at ha
  | some ra =>
    cases hrb : b[r]? with
    | none => simp [hrb] at hb
    | some rb =>
      simp only [hra, hrb, Option.some_bind] at ha hb
      simp [List.getElem?_zipWith, hra, hrb, ha, hb]

theorem cellAt?_InRangeWithScalar (src : Image) (lower upper : Scalar) (r c : Nat) (p : Vec3b)
    (hp : cellAt? src r c = some p) :
    cellAt? (InRangeWithScalar src lower upper) r c = some (inRangeCell lower upper p) := by
  unfold InRangeWithScalar
  rw [cellAt?_map, hp]
  rfl

theorem cellAt?_Add (a b : Mask) (r c x y : Nat)
    (ha : cellAt? a r c = some x) (hb : cellAt? b r c = some y) :
    cellAt? (Add a b) r c = some (satAdd x y) :=
  cellAt?_zipWith satAdd a b r c x y ha hb

theorem inRangeCell_eq_zero_or (lower upper : Scalar) (p : Vec3b) :
    inRangeCell lower upper p = 0 ∨ inRangeCell lower upper p = 255 := by
  unfold inRangeCell
  split <;> simp

theorem inRangeCell_ne_zero_iff (lower upper : Scalar) (p : Vec3b) :
    inRangeCell lower upper p ≠ 0 ↔
      (lower.Val1 ≤ (p.c0 : Int) ∧ (p.c0 : Int) ≤ upper.Val1 ∧
       lower.Val2 ≤ (p.c1 : Int) ∧ (p.c1 : Int) ≤ upper.Val2 ∧
       lower.Val3 ≤ (p.c2 : Int) ∧ (p.c2 : Int) ≤ upper.Val3) := by
  unfold inRangeCell
  split <;> simp_all

theorem satAdd_ne_zero_iff (a b : Nat) : satAdd a b ≠ 0 ↔ a ≠ 0 ∨ b ≠ 0 := by
  unfold satAdd
  omega

/-! ## The colour-band classifier -/

/-- C1: for a band whose hue bounds wrap (`Min[0] > Max[0]`) and an HSV pixel with
hue in `0..179` and saturation/value in `0..255`, the mask of `getDBzMask` has a cell at the
pixel's place, and that cell is non-zero exactly when saturation and value are within their
bounds and the hue is at least `Min[0]` or at most `Max[0]`. In particular a hue equal to
`Min[0]` or to `Max[0]` gives foreground and a hue strictly between `Max[0]` and `Min[0]`
gives background. -/
theorem getDBzMask_wrap_cell (cvt : Vec3b → Vec3b) (img : Image) (band : RadarIntensity)
    (r c : Nat) (p : Vec3b)
    (hwrap : band.Min 0 > band.Max 0)
    (hp : cellAt? (CvtColor cvt img) r c = some p)
    (hh : p.c0 ≤ 179) (_hs : p.c1 ≤ 255) (_hv : p.c2 ≤ 255) :
    ∃ mask cell, getDBzMask cvt img band = .ok mask ∧ cellAt? mask r c = some cell ∧
      (cell ≠ 0 ↔
        (band.Min 1 ≤ (p.c1 : Int) ∧ (p.c1 : Int) ≤ band.Max 1 ∧
         band.Min 2 ≤ (p.c2 : Int) ∧ (p.c2 : Int) ≤ band.Max 2 ∧
         ((p.c0 : Int) ≥ band.Min 0 ∨ (p.c0 : Int) ≤ band.Max 0))) ∧
      ((band.Min 1 ≤ (p.c1 : Int) ∧ (p.c1 : Int) ≤ band.Max 1 ∧
         band.Min 2 ≤ (p.c2 : Int) ∧ (p.c2 : Int) ≤ band.Max 2) →
        (((p.c0 : Int) = band.Min 0 → cell ≠ 0) ∧
         ((p.c0 : Int) = band.Max 0 → cell ≠ 0) ∧
         (band.Max 0 < (p.c0 : Int) ∧ (p.c0 : Int) < band.Min 0 → cell = 0))) := by
  have hiff : satAdd
        (inRangeCell (NewScalar (band.Min 0) (band.Min 1) (band.Min 2) 0)
          (NewScalar 180 (band.Max 1) (band.Max 2) 0) p)
        (inRangeCell (NewScalar 0 (band.Min 1) (band.Min 2) 0)
          (NewScalar (band.Max 0) (band.Max 1) (band.Max 2) 0) p) ≠ 0 ↔
        (band.Min 1 ≤ (p.c1 : Int) ∧ (p.c1 : Int) ≤ band.Max 1 ∧
         band.Min 2 ≤ (p.c2 : Int) ∧ (p.c2 : Int) ≤ band.Max 2 ∧
         ((p.c0 : Int) ≥ band.Min 0 ∨ (p.c0 : Int) ≤ band.Max 0)) := by
    rw [satAdd_ne_zero_iff, inRangeCell_ne_zero_iff, inRangeCell_ne_zero_iff]
    simp only [NewScalar]
    constructor
    · rintro (h | h)
      · exact ⟨h.2.2.1, h.2.2.2.1, h.2.2.2.2.1, h.2.2.2.2.2, Or.inl h.1⟩
      · exact ⟨h.2.2.1, h.2.2.2.1, h.2.2.2.2.1, h.2.2.2.2.2, Or.inr h.2.1⟩
    · rintro ⟨h1, h2, h3, h4, h5 | h5⟩
      · exact Or.inl ⟨h5, by omega, h1, h2, h3, h4⟩
      · exact Or.inr ⟨by omega, h5, h1, h2, h3, h4⟩
  refine ⟨Add
      (InRangeWithScalar (CvtColor cvt img)
        (NewScalar (band.Min 0) (band.Min 1) (band.Min 2) 0)
        (NewScalar 180 (band.Max 1) (band.Max 2) 0))
      (InRangeWithScalar (CvtColor cvt img)
        (NewScalar 0 (band.Min 1) (band.Min 2) 0)
        (NewScalar (band.Max 0) (band.Max 1) (band.Max 2) 0)), _, ?_, ?_, hiff, ?_⟩
  · unfold getDBzMask
    rw [if_pos hwrap]
  · exact cellAt?_Add _ _ r c _ _ (cellAt?_InRangeWithScalar _ _ _ r c p hp)
      (cellAt?_InRangeWithScalar _ _ _ r c p hp)
  · intro hsv
    refine ⟨fun h0 => hiff.2 ?_, fun h0 => hiff.2 ?_, fun hmid => ?_⟩
    · exact ⟨hsv.1, hsv.2.1, hsv.2.2.1, hsv.2.2.2, Or.inl (by omega)⟩
    · exact ⟨hsv.1, hsv.2.1, hsv.2.2.1, hsv.2.2.2, Or.inr (by omega)⟩
    · by_contra hne
      have := hiff.1 hne
      omega

/-- Witness of C1: the configured high band on a one-pixel image whose HSV value is
`(150, 200, 200)`. -/
theorem getDBzMask_wrap_cell_witness :
    ∃ mask cell,
      getDBzMask (fun _ => ⟨150, 200, 200⟩) [[⟨0, 0, 255⟩]] RadarIntensityHigh = .ok mask ∧
      cellAt? mask 0 0 = some cell ∧
      (cell ≠ 0 ↔
        (RadarIntensityHigh.Min 1 ≤ ((200 : Nat) : Int) ∧
         ((200 : Nat) : Int) ≤ RadarIntensityHigh.Max 1 ∧
         RadarIntensityHigh.Min 2 ≤ ((200 : Nat) : Int) ∧
         ((200 : Nat) : Int) ≤ RadarIntensityHigh.Max 2 ∧
         (((150 : Nat) : Int) ≥ RadarIntensityHigh.Min 0 ∨
          ((150 : Nat) : Int) ≤ RadarIntensityHigh.Max 0))) ∧
      ((RadarIntensityHigh.Min 1 ≤ ((200 : Nat) : Int) ∧
         ((200 : Nat) : Int) ≤ RadarIntensityHigh.Max 1 ∧
         RadarIntensityHigh.Min 2 ≤ ((200 : Nat) : Int) ∧
         ((200 : Nat) : Int) ≤ RadarIntensityHigh.Max 2) →
        ((((150 : Nat) : Int) = RadarIntensityHigh.Min 0 → cell ≠ 0) ∧
         (((150 : Nat) : Int) = RadarIntensityHigh.Max 0 → cell ≠ 0) ∧
         (RadarIntensityHigh.Max 0 < ((150 : Nat) : Int) ∧
          ((150 : Nat) : Int) < RadarIntensityHigh.Min 0 → cell = 0))) :=
  getDBzMask_wrap_cell (fun _ => ⟨150, 200, 200⟩) [[⟨0, 0, 255⟩]] RadarIntensityHigh 0 0
    ⟨150, 200, 200⟩ (by decide) (by rfl) (by decide) (by decide) (by decide)

/-- C2: for a band with `Min[0] <= Max[0]` the wrap branch is not taken: the mask of
`getDBzMask` is the single three-channel range test between `Min` and `Max`, and its cell at
the place of an HSV pixel is non-zero exactly when each of the three channels of the pixel
lies between the band's bounds for that channel, bounds included. -/
theorem getDBzMask_nowrap_cell (cvt : Vec3b → Vec3b) (img : Image) (band : RadarIntensity)
    (r c : Nat) (p : Vec3b)
    (hnowrap : band.Min 0 ≤ band.Max 0)
    (hp : cellAt? (CvtColor cvt img) r c = some p) :
    getDBzMask cvt img band =
        .ok (InRangeWithScalar (CvtColor cvt img)
              (NewScalar (band.Min 0) (band.Min 1) (band.Min 2) 0)
              (NewScalar (band.Max 0) (band.Max 1) (band.Max 2) 0)) ∧
    ∃ mask cell, getDBzMask cvt img band = .ok mask ∧ cellAt? mask r c = some cell ∧
      (cell ≠ 0 ↔
        (band.Min 0 ≤ (p.c0 : Int) ∧ (p.c0 : Int) ≤ band.Max 0 ∧
         band.Min 1 ≤ (p.c1 : Int) ∧ (p.c1 : Int) ≤ band.Max 1 ∧
         band.Min 2 ≤ (p.c2 : Int) ∧ (p.c2 : Int) ≤ band.Max 2)) := by
  have hok : getDBzMask cvt img band =
        .ok (InRangeWithScalar (CvtColor cvt img)
              (NewScalar (band.Min 0) (band.Min 1) (band.Min 2) 0)
              (NewScalar (band.Max 0) (band.Max 1) (band.Max 2) 0)) := by
    unfold getDBzMask
    rw [if_neg (not_lt.mpr hnowrap)]
  refine ⟨hok, _, _, hok, cellAt?_InRangeWithScalar _ _ _ r c p hp, ?_⟩
  rw [inRangeCell_ne_zero_iff]
  simp only [NewScalar]

/-- Witness of C2: the configured low band on a one-pixel image whose HSV value is
`(55, 180, 180)`. -/
theorem getDBzMask_nowrap_cell_witness :
    getDBzMask (fun _ => ⟨55, 180, 180⟩) [[⟨0, 255, 0⟩]] RadarIntensityLow =
        .ok (InRangeWithScalar (CvtColor (fun _ => ⟨55, 180, 180⟩) [[⟨0, 255, 0⟩]])
              (NewScalar (RadarIntensityLow.Min 0) (RadarIntensityLow.Min 1)
                (RadarIntensityLow.Min 2) 0)
              (NewScalar (RadarIntensityLow.Max 0) (RadarIntensityLow.Max 1)
                (RadarIntensityLow.Max 2) 0)) ∧
    ∃ mask cell,
      getDBzMask (fun _ => ⟨55, 180, 180⟩) [[⟨0, 255, 0⟩]] RadarIntensityLow = .ok mask ∧
      cellAt? mask 0 0 = some cell ∧
      (cell ≠ 0 ↔
        (RadarIntensityLow.Min 0 ≤ ((55 : Nat) : Int) ∧
         ((55 : Nat) : Int) ≤ RadarIntensityLow.Max 0 ∧
         RadarIntensityLow.Min 1 ≤ ((180 : Nat) : Int) ∧
         ((180 : Nat) : Int) ≤ RadarIntensityLow.Max 1 ∧
         RadarIntensityLow.Min 2 ≤ ((180 : Nat) : Int) ∧
         ((180 : Nat) : Int) ≤ RadarIntensityLow.Max 2)) :=
  getDBzMask_nowrap_cell (fun _ => ⟨55, 180, 180⟩) [[⟨0, 255, 0⟩]] RadarIntensityLow 0 0
    ⟨55, 180, 180⟩ (by decide) (by rfl)

/-! ## Dimensions -/

theorem HasDims_map {α β : Type} (f : α → β) (m : List (List α)) (H W : Nat)
    (hm : HasDims m H W) : HasDims (m.map (fun row => row.map f)) H W := by
  refine ⟨by simpa using hm.1, ?_⟩
  intro row hrow
  rw [List.mem_map] at hrow
  obtain ⟨row0, hmem, rfl⟩ := hrow
  simpa using hm.2 row0 hmem

theorem HasDims_zipWith {α β γ : Type} (f : α → β → γ) (a : List (List α)) (b : List (List β))
    (H W : Nat) (ha : HasDims a H W) (hb : HasDims b H W) :
    HasDims (List.zipWith (fun r1 r2 => List.zipWith f r1 r2) a b) H W := by
  refine ⟨by simp [List.length_zipWith, ha.1, hb.1], ?_⟩
  intro row hrow
  rw [List.mem_iff_getElem] at hrow
  obtain ⟨n, hn, rfl⟩ := hrow
  have hn2 : n < a.length ∧ n < b.length := by
    simpa [List.length_zipWith] using hn
  rw [List.getElem_zipWith, List.length_zipWith,
    ha.2 _ (List.getElem_mem hn2.1), hb.2 _ (List.getElem_mem hn2.2)]
  exact Nat.min_self W

theorem HasDims_Add (a b : Mask) (H W : Nat) (ha : HasDims a H W) (hb : HasDims b H W) :
    HasDims (Add a b) H W :=
  HasDims_zipWith satAdd a b H W ha hb

theorem HasDims_InRangeWithScalar (src : Image) (lower upper : Scalar) (H W : Nat)
    (hs : HasDims src H W) : HasDims (InRangeWithScalar src lower upper) H W :=
  HasDims_map _ src H W hs

theorem HasDims_CvtColor (cvt : Vec3b → Vec3b) (src : Image) (H W : Nat)
    (hs : HasDims src H W) : HasDims (CvtColor cvt src) H W :=
  HasDims_map _ src H W hs

theorem cellAt?_of_HasDims {α : Type} (m : List (List α)) (H W r c : Nat)
    (hm : HasDims m H W) (hr : r < H) (hc : c < W) : ∃ x, cellAt? m r c = some x := by
  have hr2 : r < m.length := by rw [hm.1]; exact hr
  have hc2 : c < (m[r]).length := by rw [hm.2 _ (List.getElem_mem hr2)]; exact hc
  refine ⟨(m[r])[c], ?_⟩
  unfold cellAt?
  rw [List.getElem?_eq_getElem hr2, Option.some_bind, List.getElem?_eq_getElem hc2]

theorem Rows_of_HasDims {α : Type} (m : List (List α)) (H W : Nat) (hm : HasDims m H W) :
    Rows m = H := hm.1

theorem Cols_of_HasDims {α : Type} (m : List (List α)) (H W : Nat) (hm : HasDims m H W)
    (hH : 0 < H) : Cols m = W := by
  cases m with
  | nil => simp [HasDims] at hm; omega
  | cons row rest => exact hm.2 row (List.mem_cons_self _ _)

theorem IsBinary_cellAt? (m : Mask) (r c x : Nat) (hb : IsBinary m)
    (hx : cellAt? m r c = some x) : x = 0 ∨ x = 255 := by
  unfold cellAt? at hx
  cases hrow : m[r]? with
  | none => simp [hrow] at hx
  | some row =>
    rw [hrow, Option.some_bind] at hx
    exact hb row (List.getElem?_mem hrow) x (List.getElem?_mem hx)

/-! ## The mask combiner -/

theorem satAdd_binary (a b : Nat) (ha : a = 0 ∨ a = 255) (hb : b = 0 ∨ b = 255) :
    satAdd a b = 0 ∨ satAdd a b = 255 := by
  unfold satAdd
  omega

theorem IsBinary_Add (a b : Mask) (ha : IsBinary a) (hb : IsBinary b) : IsBinary (Add a b) := by
  intro row hrow x hx
  unfold Add at hrow
  rw [List.mem_iff_getElem] at hrow
  obtain ⟨n, hn, rfl⟩ := hrow
  have hn2 : n < a.length ∧ n < b.length := by
    simpa [List.length_zipWith] using hn
  rw [List.getElem_zipWith] at hx
  rw [List.mem_iff_getElem] at hx
  obtain ⟨k, hk, rfl⟩ := hx
  have hk2 : k < (a[n]).length ∧ k < (b[n]).length := by
    simpa [List.length_zipWith] using hk
  rw [List.getElem_zipWith]
  exact satAdd_binary _ _
    (ha _ (List.getElem_mem hn2.1) _ (List.getElem_mem hk2.1))
    (hb _ (List.getElem_mem hn2.2) _ (List.getElem_mem hk2.2))

/-- C3: for three band masks of the same dimensions whose cells are all 0 or 255, the
combined mask of `getCloudsPercentage` (two saturating additions) has the same dimensions,
and its cell at every place is 255 exactly when at least one of the three masks is 255
there, and 0 otherwise. -/
theorem combinedMask_is_or (maskLow maskMid maskHigh : Mask) (H W : Nat)
    (hl : HasDims maskLow H W) (hm : HasDims maskMid H W) (hh : HasDims maskHigh H W)
    (bl : IsBinary maskLow) (bm : IsBinary maskMid) (bh : IsBinary maskHigh) :
    HasDims (Add (Add maskLow maskMid) maskHigh) H W ∧
    ∀ r c, r < H → c < W →
      ∃ l m h cell,
        cellAt? maskLow r c = some l ∧ cellAt? maskMid r c = some m ∧
        cellAt? maskHigh r c = some h ∧
        cellAt? (Add (Add maskLow maskMid) maskHigh) r c = some cell ∧
        (cell = 255 ↔ (l = 255 ∨ m = 255 ∨ h = 255)) ∧
        (¬ (l = 255 ∨ m = 255 ∨ h = 255) → cell = 0) := by
  refine ⟨HasDims_Add _ _ H W (HasDims_Add _ _ H W hl hm) hh, ?_⟩
  intro r c hr hc
  obtain ⟨l, hlc⟩ := cellAt?_of_HasDims maskLow H W r c hl hr hc
  obtain ⟨m, hmc⟩ := cellAt?_of_HasDims maskMid H W r c hm hr hc
  obtain ⟨h, hhc⟩ := cellAt?_of_HasDims maskHigh H W r c hh hr hc
  have h1 := IsBinary_cellAt? _ r c l bl hlc
  have h2 := IsBinary_cellAt? _ r c m bm hmc
  have h3 := IsBinary_cellAt? _ r c h bh hhc
  refine ⟨l, m, h, satAdd (satAdd l m) h, hlc, hmc, hhc,
    cellAt?_Add _ _ r c _ _ (cellAt?_Add _ _ r c _ _ hlc hmc) hhc, ?_, ?_⟩
  · unfold satAdd
    omega
  · unfold satAdd
    omega

/-- Witness of C3: three 1×2 masks. -/
theorem combinedMask_is_or_witness :
    HasDims (Add (Add [[0, 255]] [[0, 0]]) [[0, 255]]) 1 2 ∧
    ∀ r c, r < 1 → c < 2 →
      ∃ l m h cell,
        cellAt? [[0, 255]] r c = some l ∧ cellAt? [[0, 0]] r c = some m ∧
        cellAt? [[0, 255]] r c = some h ∧
        cellAt? (Add (Add [[0, 255]] [[0, 0]]) [[0, 255]]) r c = some cell ∧
        (cell = 255 ↔ (l = 255 ∨ m = 255 ∨ h = 255)) ∧
        (¬ (l = 255 ∨ m = 255 ∨ h = 255) → cell = 0) :=
  combinedMask_is_or [[0, 255]] [[0, 0]] [[0, 255]] 1 2
    (by decide) (by decide) (by decide) (by decide) (by decide) (by decide)

/-! ### Commutativity and associativity -/

theorem satAdd_comm (a b : Nat) : satAdd a b = satAdd b a := by
  unfold satAdd
  omega

theorem satAdd_assoc (a b c : Nat) : satAdd (satAdd a b) c = satAdd a (satAdd b c) := by
  unfold satAdd
  omega

theorem zipWith_satAdd_comm (r1 r2 : List Nat) :
    List.zipWith satAdd r1 r2 = List.zipWith satAdd r2 r1 := by
  induction r1 generalizing r2 with
  | nil => cases r2 <;> rfl
  | cons x xs ih =>
    cases r2 with
    | nil => rfl
    | cons y ys => simp [List.zipWith, satAdd_comm x y, ih ys]

theorem zipWith_satAdd_assoc (r1 r2 r3 : List Nat) :
    List.zipWith satAdd (List.zipWith satAdd r1 r2) r3 =
      List.zipWith satAdd r1 (List.zipWith satAdd r2 r3) := by
  induction r1 generalizing r2 r3 with
  | nil => simp
  | cons x xs ih =>
    cases r2 with
    | nil => simp
    | cons y ys =>
      cases r3 with
      | nil => simp
      | cons z zs => simp [List.zipWith, satAdd_assoc x y z, ih ys zs]

theorem Add_comm (a b : Mask) : Add a b = Add b a := by
  unfold Add
  induction a generalizing b with
  | nil => cases b <;> rfl
  | cons x xs ih =>
    cases b with
    | nil => rfl
    | cons y ys => simp [List.zipWith, zipWith_satAdd_comm x y, ih ys]

theorem Add_assoc (a b c : Mask) : Add (Add a b) c = Add a (Add b c) := by
  unfold Add
  induction a generalizing b c with
  | nil => simp
  | cons x xs ih =>
    cases b with
    | nil => simp
    | cons y ys =>
      cases c with
      | nil => simp
      | cons z zs => simp [List.zipWith, zipWith_satAdd_assoc x y z, ih ys zs]

/-- C9: the cell-by-cell saturating addition that combines the masks is commutative and
associative on masks of identical dimensions, so `getCloudsPercentage` would build the same
combined mask from the low, mid and high masks taken in any of the six orders. -/
theorem Add_order_independent (a b c : Mask) (H W : Nat)
    (_ha : HasDims a H W) (_hb : HasDims b H W) (_hc : HasDims c H W) :
    Add a b = Add b a ∧ Add (Add a b) c = Add a (Add b c) ∧
    Add (Add a b) c = Add (Add a c) b ∧
    Add (Add a b) c = Add (Add b a) c ∧
    Add (Add a b) c = Add (Add b c) a ∧
    Add (Add a b) c = Add (Add c a) b ∧
    Add (Add a b) c = Add (Add c b) a := by
  refine ⟨Add_comm a b, Add_assoc a b c, ?_, ?_, ?_, ?_, ?_⟩
  · rw [Add_assoc a b c, Add_comm b c, ← Add_assoc a c b]
  · rw [Add_comm a b]
  · rw [Add_assoc a b c, Add_comm a (Add b c)]
  · rw [Add_assoc a b c, Add_comm b c, ← Add_assoc a c b, Add_comm a c]
  · rw [Add_assoc a b c, Add_comm a (Add b c), Add_comm b c]

/-- Witness of C9: three 1×3 masks. -/
theorem Add_order_independent_witness :
    Add [[0, 255, 0]] [[255, 255, 0]] = Add [[255, 255, 0]] [[0, 255, 0]] ∧
    Add (Add [[0, 255, 0]] [[255, 255, 0]]) [[0, 0, 0]] =
      Add [[0, 255, 0]] (Add [[255, 255, 0]] [[0, 0, 0]]) ∧
    Add (Add [[0, 255, 0]] [[255, 255, 0]]) [[0, 0, 0]] =
      Add (Add [[0, 255, 0]] [[0, 0, 0]]) [[255, 255, 0]] ∧
    Add (Add [[0, 255, 0]] [[255, 255, 0]]) [[0, 0, 0]] =
      Add (Add [[255, 255, 0]] [[0, 255, 0]]) [[0, 0, 0]] ∧
    Add (Add [[0, 255, 0]] [[255, 255, 0]]) [[0, 0, 0]] =
      Add (Add [[255, 255, 0]] [[0, 0, 0]]) [[0, 255, 0]] ∧
    Add (Add [[0, 255, 0]] [[255, 255, 0]]) [[0, 0, 0]] =
      Add (Add [[0, 0, 0]] [[0, 255, 0]]) [[255, 255, 0]] ∧
    Add (Add [[0, 255, 0]] [[255, 255, 0]]) [[0, 0, 0]] =
      Add (Add [[0, 0, 0]] [[255, 255, 0]]) [[0, 255, 0]] :=
  Add_order_independent [[0, 255, 0]] [[255, 255, 0]] [[0, 0, 0]] 1 3
    (by decide) (by decide) (by decide)

/-! ## The coverage calculator -/

theorem CountNonZero_nil : CountNonZero [] = 0 := rfl

theorem CountNonZero_cons (row : List Nat) (rest : Mask) :
    CountNonZero (row :: rest) =
      row.countP (fun x => decide (x ≠ 0)) + CountNonZero rest := by
  simp [CountNonZero]

theorem HasDims_cons {α : Type} (row : List α) (rest : List (List α)) (H W : Nat)
    (h : HasDims (row :: rest) H W) : row.length = W ∧ HasDims rest (H - 1) W ∧ H = rest.length + 1 := by
  obtain ⟨h1, h2⟩ := h
  refine ⟨h2 row (List.mem_cons_self _ _), ⟨?_, fun r hr => h2 r (List.mem_cons_of_mem _ hr)⟩, ?_⟩
  · simp at h1; omega
  · simp at h1; omega

theorem CountNonZero_le (m : Mask) (H W : Nat) (hm : HasDims m H W) :
    CountNonZero m ≤ H * W := by
  induction m generalizing H with
  | nil => simp [CountNonZero_nil]
  | cons row rest ih =>
    obtain ⟨hrow, hrest, hH⟩ := HasDims_cons row rest H W hm
    have h1 := ih (H - 1) hrest
    have h2 : row.countP (fun x => decide (x ≠ 0)) ≤ W := by
      rw [← hrow]; exact List.countP_le_length _
    rw [CountNonZero_cons, hH]
    rw [hH] at h1
    simp only [Nat.add_sub_cancel] at h1
    rw [Nat.add_mul, Nat.one_mul]
    omega

theorem CountNonZero_eq_zero_iff (m : Mask) :
    CountNonZero m = 0 ↔ ∀ row ∈ m, ∀ x ∈ row, x = 0 := by
  induction m with
  | nil => simp [CountNonZero_nil]
  | cons row rest ih =>
    rw [CountNonZero_cons, Nat.add_eq_zero_iff, ih, List.countP_eq_zero]
    simp

theorem CountNonZero_eq_full_iff (m : Mask) (H W : Nat) (hm : HasDims m H W) :
    CountNonZero m = H * W ↔ ∀ row ∈ m, ∀ x ∈ row, x ≠ 0 := by
  induction m generalizing H with
  | nil =>
    have : H = 0 := by simpa [HasDims] using hm.1.symm
    simp [CountNonZero_nil, this]
  | cons row rest ih =>
    obtain ⟨hrow, hrest, hH⟩ := HasDims_cons row rest H W hm
    have h1 := CountNonZero_le rest (H - 1) W hrest
    have h2 : row.countP (fun x => decide (x ≠ 0)) ≤ W := by
      rw [← hrow]; exact List.countP_le_length _
    have ih2 := ih (H - 1) hrest
    rw [hH] at h1 ih2
    simp only [Nat.add_sub_cancel] at h1 ih2
    have hrowfull : row.countP (fun x => decide (x ≠ 0)) = W ↔ ∀ x ∈ row, x ≠ 0 := by
      rw [← hrow, List.countP_eq_length]
      simp
    rw [CountNonZero_cons, hH, Nat.add_mul, Nat.one_mul]
    constructor
    · intro h
      have ha : row.countP (fun x => decide (x ≠ 0)) = W := by omega
      have hb : CountNonZero rest = rest.length * W := by omega
      intro r hr
      rcases List.mem_cons.1 hr with rfl | hr
      · exact hrowfull.1 ha
      · exact ih2.1 hb r hr
    · intro h
      have ha := hrowfull.2 (h row (List.mem_cons_self _ _))
      have hb := ih2.2 (fun r hr => h r (List.mem_cons_of_mem _ hr))
      omega

/-! ### The rounding of `float64` arithmetic -/

theorem roundHalfEven_mono {x y : ℚ} (h : x ≤ y) : roundHalfEven x ≤ roundHalfEven y := by
  have hf := Int.floor_mono h
  have hx1 := Int.floor_le x
  have hy2 := Int.lt_floor_add_one y
  unfold roundHalfEven
  simp only []
  rcases hf.lt_or_eq with hlt | heq
  · split_ifs <;> omega
  · rw [← heq]
    have hd : x - (⌊x⌋ : ℚ) ≤ y - (⌊x⌋ : ℚ) := by linarith
    split_ifs <;> first | omega | (exfalso; linarith)

theorem roundHalfEven_intCast (n : ℤ) : roundHalfEven (n : ℚ) = n := by
  unfold roundHalfEven
  simp

theorem roundHalfEven_of_floor (x : ℚ) (f : ℤ) (hf : ⌊x⌋ = f) :
    roundHalfEven x = if x - f < 1 / 2 then f
      else if 1 / 2 < x - f then f + 1
      else if f % 2 = 0 then f else f + 1 := by
  unfold roundHalfEven
  simp only [hf]

theorem log_two_eq (x : ℚ) (e : ℤ) (hx : 0 < x) (h1 : (2 : ℚ) ^ e ≤ x)
    (h2 : x < (2 : ℚ) ^ (e + 1)) : Int.log 2 x = e := by
  apply le_antisymm
  · have := (Int.lt_zpow_iff_log_lt (b := 2) (by norm_num) hx).1 h2
    omega
  · exact (Int.zpow_le_iff_le_log (b := 2) (by norm_num) hx).1 h1

theorem roundF64_zero : roundF64 0 = 0 := by
  simp [roundF64]

theorem roundF64_pos_bounds (x : ℚ) (hx : 0 < x) :
    (2 : ℚ) ^ Int.log 2 x ≤ roundF64 x ∧ roundF64 x ≤ (2 : ℚ) ^ (Int.log 2 x + 1) := by
  have h1 := Int.zpow_log_le_self (b := 2) (by norm_num) hx
  have h2 := Int.lt_zpow_succ_log_self (b := 2) (R := ℚ) (by norm_num) x
  simp only [Nat.cast_ofNat] at h1 h2
  have hu : (0 : ℚ) < 2 ^ (Int.log 2 x - 52) := by positivity
  unfold roundF64
  rw [if_neg (ne_of_gt hx), abs_of_pos hx]
  simp only []
  have e1 : (2 : ℚ) ^ Int.log 2 x = ((2 ^ 52 : ℤ) : ℚ) * 2 ^ (Int.log 2 x - 52) := by
    rw [zpow_sub₀ (by norm_num)]
    push_cast
    field_simp
    ring
  have e2 : (2 : ℚ) ^ (Int.log 2 x + 1) = ((2 ^ 53 : ℤ) : ℚ) * 2 ^ (Int.log 2 x - 52) := by
    rw [zpow_sub₀ (by norm_num), zpow_add₀ (by norm_num)]
    push_cast
    field_simp
    ring
  constructor
  · rw [e1]
    apply mul_le_mul_of_nonneg_right _ (le_of_lt hu)
    have hle : ((2 ^ 52 : ℤ) : ℚ) ≤ x / 2 ^ (Int.log 2 x - 52) := by
      rw [le_div_iff₀ hu, ← e1]; exact h1
    have hr := roundHalfEven_mono hle
    rw [roundHalfEven_intCast] at hr
    exact_mod_cast hr
  · rw [e2]
    apply mul_le_mul_of_nonneg_right _ (le_of_lt hu)
    have hle : x / 2 ^ (Int.log 2 x - 52) ≤ ((2 ^ 53 : ℤ) : ℚ) := by
      rw [div_le_iff₀ hu, ← e2]; exact le_of_lt h2
    have hr := roundHalfEven_mono hle
    rw [roundHalfEven_intCast] at hr
    exact_mod_cast hr

/-- Rounding to `float64` is monotone on the non-negative rationals. -/
theorem roundF64_mono_nonneg (x y : ℚ) (hx : 0 ≤ x) (h : x ≤ y) :
    roundF64 x ≤ roundF64 y := by
  rcases hx.lt_or_eq with hx | hx
  · have hy : 0 < y := lt_of_lt_of_le hx h
    have hlog := Int.log_mono_right (b := 2) hx h
    rcases hlog.lt_or_eq with hlt | heq
    · have b1 := (roundF64_pos_bounds x hx).2
      have b2 := (roundF64_pos_bounds y hy).1
      have hpow : (2 : ℚ) ^ (Int.log 2 x + 1) ≤ 2 ^ Int.log 2 y :=
        zpow_le_zpow_right₀ (by norm_num) (by omega)
      linarith
    · unfold roundF64
      rw [if_neg (ne_of_gt hx), if_neg (ne_of_gt hy), abs_of_pos hx, abs_of_pos hy, heq]
      simp only []
      have hu : (0 : ℚ) < 2 ^ (Int.log 2 y - 52) := by positivity
      apply mul_le_mul_of_nonneg_right _ (le_of_lt hu)
      have hle : x / 2 ^ (Int.log 2 y - 52) ≤ y / 2 ^ (Int.log 2 y - 52) :=
        div_le_div_of_nonneg_right h (le_of_lt hu)
      exact_mod_cast roundHalfEven_mono hle
  · subst hx
    rcases h.lt_or_eq with hy | hy
    · have b2 := (roundF64_pos_bounds y hy).1
      have hpos : (0 : ℚ) < 2 ^ Int.log 2 y := by positivity
      rw [roundF64_zero]; linarith
    · subst hy; exact le_refl _

theorem roundF64_one : roundF64 1 = 1 := by
  have hlog : Int.log 2 |(1 : ℚ)| = 0 := by
    rw [abs_of_pos (by norm_num)]
    exact log_two_eq 1 0 (by norm_num) (by norm_num) (by norm_num)
  unfold roundF64
  rw [if_neg (by norm_num)]
  simp only [hlog]
  have hint : (1 : ℚ) / 2 ^ ((0 : ℤ) - 52) = ((2 ^ 52 : ℤ) : ℚ) := by norm_num
  rw [hint, roundHalfEven_intCast]
  norm_num

theorem roundF64_hundred : roundF64 100 = 100 := by
  have hlog : Int.log 2 |(100 : ℚ)| = 6 := by
    rw [abs_of_pos (by norm_num)]
    exact log_two_eq 100 6 (by norm_num) (by norm_num) (by norm_num)
  unfold roundF64
  rw [if_neg (by norm_num)]
  simp only [hlog]
  have hint : (100 : ℚ) / 2 ^ ((6 : ℤ) - 52) = ((100 * 2 ^ 46 : ℤ) : ℚ) := by norm_num
  rw [hint, roundHalfEven_intCast]
  norm_num

theorem roundF64_nonneg (x : ℚ) (hx : 0 ≤ x) : 0 ≤ roundF64 x := by
  have h := roundF64_mono_nonneg 0 x (le_refl 0) hx
  rwa [roundF64_zero] at h

theorem roundF64_17_60000 : roundF64 (17 / 60000) = 5226577487551040 / 2 ^ 64 := by
  have hlog : Int.log 2 |(17 / 60000 : ℚ)| = -12 := by
    rw [abs_of_pos (by norm_num)]
    exact log_two_eq _ _ (by norm_num) (by norm_num) (by norm_num)
  unfold roundF64
  rw [if_neg (by norm_num)]
  simp only [hlog]
  have hfl : ⌊(17 / 60000 : ℚ) / 2 ^ ((-12 : ℤ) - 52)⌋ = 5226577487551039 := by
    rw [Int.floor_eq_iff]
    constructor <;> norm_num
  rw [roundHalfEven_of_floor _ _ hfl]
  norm_num

theorem roundF64_times_100 :
    roundF64 (5226577487551040 / 2 ^ 64 * 100) = 8166527324298500 / 2 ^ 58 := by
  have hlog : Int.log 2 |(5226577487551040 / 2 ^ 64 * 100 : ℚ)| = -6 := by
    rw [abs_of_pos (by norm_num)]
    exact log_two_eq _ _ (by norm_num) (by norm_num) (by norm_num)
  unfold roundF64
  rw [if_neg (by norm_num)]
  simp only [hlog]
  have hint : (5226577487551040 / 2 ^ 64 * 100 : ℚ) / 2 ^ ((-6 : ℤ) - 52) =
      ((8166527324298500 : ℤ) : ℚ) := by norm_num
  rw [hint, roundHalfEven_intCast]
  norm_num

theorem roundF64_17_600 : roundF64 (17 / 600) = 8166527324298499 / 2 ^ 58 := by
  have hlog : Int.log 2 |(17 / 600 : ℚ)| = -6 := by
    rw [abs_of_pos (by norm_num)]
    exact log_two_eq _ _ (by norm_num) (by norm_num) (by norm_num)
  unfold roundF64
  rw [if_neg (by norm_num)]
  simp only [hlog]
  have hfl : ⌊(17 / 600 : ℚ) / 2 ^ ((-6 : ℤ) - 52)⌋ = 8166527324298499 := by
    rw [Int.floor_eq_iff]
    constructor <;> norm_num
  rw [roundHalfEven_of_floor _ _ hfl]
  norm_num

/-! ### The percentage -/

theorem getWhitePercentage_of_pos (rnd : ℚ → ℚ) (img : Mask)
    (hpos : 0 < Cols img * Rows img) :
    getWhitePercentage rnd img =
      F64.num (rnd (rnd ((CountNonZero img : ℚ) / ((Cols img * Rows img : Nat) : ℚ)) * 100)) := by
  unfold getWhitePercentage fdiv
  simp only []
  rw [if_neg (Nat.pos_iff_ne_zero.mp hpos)]
  rfl

theorem getWhitePercentage_of_zero (rnd : ℚ → ℚ) (img : Mask)
    (hzero : Cols img * Rows img = 0) :
    getWhitePercentage rnd img = F64.nan ∨ getWhitePercentage rnd img = F64.inf := by
  unfold getWhitePercentage fdiv
  simp only []
  rw [if_pos hzero]
  by_cases h : CountNonZero img = 0
  · left; rw [if_pos h]; rfl
  · right; rw [if_neg h]; rfl

/-- C6: for a mask (a dense grid) with `width * height > 0`, `getWhitePercentage`, its
arithmetic taken as exact, returns the number `100 * count / (width * height)`, where
`count` is the number of non-zero cells; this number lies between 0 and 100, is 0 exactly
when no cell is non-zero and is 100 exactly when every cell is non-zero. The value the
program computes in `float64` lies between 0 and 100 too. -/
theorem getWhitePercentage_range (img : Mask)
    (hgrid : HasDims img (Rows img) (Cols img)) (hpos : 0 < Cols img * Rows img) :
    (∃ q : ℚ, getWhitePercentage id img = F64.num q ∧
      q = 100 * (CountNonZero img : ℚ) / ((Cols img * Rows img : Nat) : ℚ) ∧
      0 ≤ q ∧ q ≤ 100 ∧
      (q = 0 ↔ ∀ row ∈ img, ∀ x ∈ row, x = 0) ∧
      (q = 100 ↔ ∀ row ∈ img, ∀ x ∈ row, x ≠ 0)) ∧
    ∃ q : ℚ, getWhitePercentage roundF64 img = F64.num q ∧ 0 ≤ q ∧ q ≤ 100 := by
  have hle := CountNonZero_le img _ _ hgrid
  have hfull := CountNonZero_eq_full_iff img _ _ hgrid
  have hzero := CountNonZero_eq_zero_iff img
  have hval := getWhitePercentage_of_pos id img hpos
  have hvalF := getWhitePercentage_of_pos roundF64 img hpos
  rw [Nat.mul_comm] at hle hfull
  generalize CountNonZero img = n at *
  generalize Cols img * Rows img = s at *
  have hs : (0 : ℚ) < (s : ℚ) := by exact_mod_cast hpos
  have hn : (n : ℚ) ≤ (s : ℚ) := by exact_mod_cast hle
  have hn0 : (0 : ℚ) ≤ (n : ℚ) := by exact_mod_cast Nat.zero_le n
  have hq0 : (0 : ℚ) ≤ (n : ℚ) / (s : ℚ) := by positivity
  have hq1 : (n : ℚ) / (s : ℚ) ≤ 1 := by
    rw [div_le_iff₀ hs]
    linarith
  constructor
  · refine ⟨100 * (n : ℚ) / (s : ℚ), ?_, rfl, ?_, ?_, ?_, ?_⟩
    · rw [hval]
      simp only [id]
      congr 1
      ring
    · positivity
    · rw [div_le_iff₀ hs]
      linarith
    · rw [← hzero]
      constructor
      · intro h
        rw [div_eq_zero_iff] at h
        rcases h with h | h
        · have : (n : ℚ) = 0 := by linarith
          exact_mod_cast this
        · exact absurd h (ne_of_gt hs)
      · intro h
        simp [h]
    · rw [← hfull]
      constructor
      · intro h
        rw [div_eq_iff (ne_of_gt hs)] at h
        have : (n : ℚ) = (s : ℚ) := by linarith
        exact_mod_cast this
      · intro h
        rw [h, div_eq_iff (ne_of_gt hs)]
  · have r0 := roundF64_nonneg _ hq0
    have r1 := roundF64_mono_nonneg _ 1 hq0 hq1
    rw [roundF64_one] at r1
    have p0 : (0 : ℚ) ≤ roundF64 ((n : ℚ) / (s : ℚ)) * 100 := by positivity
    have p1 : roundF64 ((n : ℚ) / (s : ℚ)) * 100 ≤ 100 := by linarith
    have t1 := roundF64_mono_nonneg _ 100 p0 p1
    rw [roundF64_hundred] at t1
    exact ⟨_, hvalF, roundF64_nonneg _ p0, t1⟩

/-- Witness of C6: a 2×2 mask with three non-zero cells. -/
theorem getWhitePercentage_range_witness :
    (∃ q : ℚ, getWhitePercentage id [[0, 255], [255, 255]] = F64.num q ∧
      q = 100 * (CountNonZero [[0, 255], [255, 255]] : ℚ) /
            ((Cols [[0, 255], [255, 255]] * Rows [[0, 255], [255, 255]] : Nat) : ℚ) ∧
      0 ≤ q ∧ q ≤ 100 ∧
      (q = 0 ↔ ∀ row ∈ [[0, 255], [255, 255]], ∀ x ∈ row, x = 0) ∧
      (q = 100 ↔ ∀ row ∈ [[0, 255], [255, 255]], ∀ x ∈ row, x ≠ 0)) ∧
    ∃ q : ℚ, getWhitePercentage roundF64 [[0, 255], [255, 255]] = F64.num q ∧
      0 ≤ q ∧ q ≤ 100 :=
  getWhitePercentage_range [[0, 255], [255, 255]] (by decide) (by decide)

theorem countP_mono_row (xs ys : List Nat) (hlen : xs.length = ys.length)
    (h : ∀ (i x y : Nat), xs[i]? = some x → ys[i]? = some y → x ≠ 0 → y ≠ 0) :
    xs.countP (fun x => decide (x ≠ 0)) ≤ ys.countP (fun x => decide (x ≠ 0)) := by
  induction xs generalizing ys with
  | nil => simp
  | cons x xs ih =>
    cases ys with
    | nil => simp at hlen
    | cons y ys =>
      have htail := ih ys (by simpa using hlen)
        (fun i a b ha hb => h (i + 1) a b (by simpa using ha) (by simpa using hb))
      have hhead := h 0 x y (by simp) (by simp)
      rw [List.countP_cons, List.countP_cons]
      by_cases hx : x = 0
      · rw [if_neg (by simp [hx])]
        omega
      · have hy := hhead hx
        rw [if_pos (by simp [hx]), if_pos (by simp [hy])]
        omega

theorem cellAt?_cons_zero {α : Type} (row : List α) (rest : List (List α)) (c : Nat) :
    cellAt? (row :: rest) 0 c = row[c]? := by
  simp [cellAt?]

theorem cellAt?_cons_succ {α : Type} (row : List α) (rest : List (List α)) (r c : Nat) :
    cellAt? (row :: rest) (r + 1) c = cellAt? rest r c := by
  simp [cellAt?]

theorem CountNonZero_mono (A B : Mask) (H W : Nat) (hA : HasDims A H W) (hB : HasDims B H W)
    (h : ∀ r c a b, cellAt? A r c = some a → cellAt? B r c = some b → a ≠ 0 → b ≠ 0) :
    CountNonZero A ≤ CountNonZero B := by
  induction A generalizing B H with
  | nil => simp [CountNonZero_nil]
  | cons ra A ih =>
    cases B with
    | nil =>
      have h1 := hA.1
      have h2 := hB.1
      simp at h1 h2
      omega
    | cons rb B =>
      obtain ⟨hra, hAr, _⟩ := HasDims_cons ra A H W hA
      obtain ⟨hrb, hBr, _⟩ := HasDims_cons rb B H W hB
      have hrow := countP_mono_row ra rb (by rw [hra, hrb])
        (fun i x y hx hy => h 0 i x y (by rw [cellAt?_cons_zero]; exact hx)
          (by rw [cellAt?_cons_zero]; exact hy))
      have hrest := ih B (H - 1) hAr hBr
        (fun r c a b ha hb => h (r + 1) c a b (by rw [cellAt?_cons_succ]; exact ha)
          (by rw [cellAt?_cons_succ]; exact hb))
      rw [CountNonZero_cons, CountNonZero_cons]
      omega

/-- C8: coverage is monotonic. For two masks of the same non-empty dimensions such that
every non-zero cell of the first is non-zero in the second, `getWhitePercentage` returns a
number for each and the first is at most the second; this holds for the arithmetic taken
as exact and for every rounding that is monotone on the non-negative rationals, as the
rounding of `float64` is. -/
theorem getWhitePercentage_mono (rnd : ℚ → ℚ) (A B : Mask) (H W : Nat)
    (hrnd0 : 0 ≤ rnd 0) (hrnd : ∀ x y : ℚ, 0 ≤ x → x ≤ y → rnd x ≤ rnd y)
    (hA : HasDims A H W) (hB : HasDims B H W) (hH : 0 < H) (hW : 0 < W)
    (h : ∀ r c a b, cellAt? A r c = some a → cellAt? B r c = some b → a ≠ 0 → b ≠ 0) :
    (∃ qa qb : ℚ, getWhitePercentage id A = F64.num qa ∧
      getWhitePercentage id B = F64.num qb ∧ qa ≤ qb) ∧
    ∃ qa qb : ℚ, getWhitePercentage rnd A = F64.num qa ∧
      getWhitePercentage rnd B = F64.num qb ∧ qa ≤ qb := by
  have hcA : Cols A = W := Cols_of_HasDims A H W hA hH
  have hcB : Cols B = W := Cols_of_HasDims B H W hB hH
  have hrA : Rows A = H := hA.1
  have hrB : Rows B = H := hB.1
  have hpos : 0 < W * H := Nat.mul_pos hW hH
  have hmono := CountNonZero_mono A B H W hA hB h
  have hq : (CountNonZero A : ℚ) ≤ (CountNonZero B : ℚ) := by exact_mod_cast hmono
  have hs : (0 : ℚ) < ((W * H : Nat) : ℚ) := by exact_mod_cast hpos
  have hdiv := div_le_div_of_nonneg_right hq (le_of_lt hs)
  have hA0 : (0 : ℚ) ≤ (CountNonZero A : ℚ) / ((W * H : Nat) : ℚ) := by positivity
  have key : ∀ r : ℚ → ℚ, 0 ≤ r 0 → (∀ x y : ℚ, 0 ≤ x → x ≤ y → r x ≤ r y) →
      ∃ qa qb : ℚ, getWhitePercentage r A = F64.num qa ∧
        getWhitePercentage r B = F64.num qb ∧ qa ≤ qb := by
    intro r hr0 hr
    have hvA := getWhitePercentage_of_pos r A (by rw [hcA, hrA]; exact hpos)
    have hvB := getWhitePercentage_of_pos r B (by rw [hcB, hrB]; exact hpos)
    rw [hcA, hrA] at hvA
    rw [hcB, hrB] at hvB
    refine ⟨_, _, hvA, hvB, ?_⟩
    have s1 := hr _ _ hA0 hdiv
    have s0 : r 0 ≤ r ((CountNonZero A : ℚ) / ((W * H : Nat) : ℚ)) := hr 0 _ (le_refl 0) hA0
    have s2 : r ((CountNonZero A : ℚ) / ((W * H : Nat) : ℚ)) * 100 ≤
        r ((CountNonZero B : ℚ) / ((W * H : Nat) : ℚ)) * 100 := by linarith
    exact hr _ _ (by linarith) s2
  exact ⟨key id (le_refl (0 : ℚ)) (fun x y _ hxy => hxy), key rnd hrnd0 hrnd⟩

/-- Witness of C8: two 1×2 masks, the second with one more non-zero cell, in the `float64`
arithmetic of the program. -/
theorem getWhitePercentage_mono_witness :
    (∃ qa qb : ℚ, getWhitePercentage id [[0, 255]] = F64.num qa ∧
      getWhitePercentage id [[255, 255]] = F64.num qb ∧ qa ≤ qb) ∧
    ∃ qa qb : ℚ, getWhitePercentage roundF64 [[0, 255]] = F64.num qa ∧
      getWhitePercentage roundF64 [[255, 255]] = F64.num qb ∧ qa ≤ qb :=
  getWhitePercentage_mono roundF64 [[0, 255]] [[255, 255]] 1 2
    (le_of_eq roundF64_zero.symm) roundF64_mono_nonneg
    (by decide) (by decide) (by decide) (by decide)
    (by
      intro r c a b ha hb hne
      match r, c with
      | 0, 0 => simp [cellAt?] at ha hb; omega
      | 0, 1 => simp [cellAt?] at ha hb; omega
      | 0, c + 2 => simp [cellAt?] at ha
      | r + 1, c => simp [cellAt?] at ha)

/-! ## The pipeline -/

theorem getDBzMask_ok (cvt : Vec3b → Vec3b) (img : Image) (band : RadarIntensity) (H W : Nat)
    (himg : HasDims img H W) :
    ∃ mask, getDBzMask cvt img band = .ok mask ∧ HasDims mask H W := by
  have hhsv := HasDims_CvtColor cvt img H W himg
  unfold getDBzMask
  by_cases hwrap : band.Min 0 > band.Max 0
  · rw [if_pos hwrap]
    exact ⟨_, rfl, HasDims_Add _ _ H W (HasDims_InRangeWithScalar _ _ _ H W hhsv)
      (HasDims_InRangeWithScalar _ _ _ H W hhsv)⟩
  · rw [if_neg hwrap]
    exact ⟨_, rfl, HasDims_InRangeWithScalar _ _ _ H W hhsv⟩

theorem Rows_BitwiseAndWithMask (img : Image) (mask : Mask) (H W : Nat)
    (himg : HasDims img H W) (hmask : HasDims mask H W) :
    Rows (BitwiseAndWithMask img img mask) = H := by
  unfold Rows BitwiseAndWithMask
  simp [List.length_zipWith, List.length_zip, himg.1, hmask.1]

theorem Cols_BitwiseAndWithMask (img : Image) (mask : Mask) (H W : Nat)
    (himg : HasDims img H W) (hmask : HasDims mask H W) (hH : 0 < H) :
    Cols (BitwiseAndWithMask img img mask) = W := by
  cases img with
  | nil => have := himg.1; simp at this; omega
  | cons ri img =>
    cases mask with
    | nil => have := hmask.1; simp at this; omega
    | cons rm mask =>
      have h1 := himg.2 ri (List.mem_cons_self _ _)
      have h2 := hmask.2 rm (List.mem_cons_self _ _)
      simp [BitwiseAndWithMask, Cols, List.length_zipWith, List.length_zip, h1, h2]

theorem getCloudsPercentage_eq (rnd : ℚ → ℚ) (cvt : Vec3b → Vec3b) (img : Image)
    (low mid high : RadarIntensity) (x0 y0 x1 y1 : Int) (saveImage : Bool) (H W : Nat)
    (himg : HasDims img H W) (hH : 0 < H) :
    ∃ maskLow maskMid maskHigh,
      getDBzMask cvt img low = .ok maskLow ∧ getDBzMask cvt img mid = .ok maskMid ∧
      getDBzMask cvt img high = .ok maskHigh ∧
      HasDims (Add (Add maskLow maskMid) maskHigh) H W ∧
      getCloudsPercentage rnd cvt (.ok img) low mid high x0 y0 x1 y1 saveImage =
        if x0 < 0 ∨ y0 < 0 ∨ x1 > (W : Int) ∨ y1 > (H : Int) then .error Err.invalidCropping
        else (Region (Add (Add maskLow maskMid) maskHigh) (Rect x0 y0 x1 y1)).map
          (getWhitePercentage rnd) := by
  obtain ⟨ml, hml, dl⟩ := getDBzMask_ok cvt img low H W himg
  obtain ⟨mm, hmm, dm⟩ := getDBzMask_ok cvt img mid H W himg
  obtain ⟨mh, hmh, dh⟩ := getDBzMask_ok cvt img high H W himg
  have dc := HasDims_Add _ _ H W (HasDims_Add _ _ H W dl dm) dh
  refine ⟨ml, mm, mh, hml, hmm, hmh, dc, ?_⟩
  have hr := Rows_BitwiseAndWithMask img _ H W himg dc
  have hc := Cols_BitwiseAndWithMask img _ H W himg dc hH
  unfold getCloudsPercentage
  simp only [bind, Except.bind, hml, hmm, hmh, hr, hc]
  split
  · rfl
  · cases Region (Add (Add ml mm) mh) (Rect x0 y0 x1 y1) <;> rfl

theorem Rect_of_le (x0 y0 x1 y1 : Int) (hx : x0 ≤ x1) (hy : y0 ≤ y1) :
    Rect x0 y0 x1 y1 = ⟨x0, y0, x1, y1⟩ := by
  unfold Rect
  simp [not_lt.mpr hx, not_lt.mpr hy]

theorem HasDims_crop {α : Type} (m : List (List α)) (H W y h x w : Nat)
    (hm : HasDims m H W) (hy : y + h ≤ H) (hx : x + w ≤ W) :
    HasDims (((m.drop y).take h).map (fun row => (row.drop x).take w)) h w := by
  constructor
  · simp only [List.length_map, List.length_take, List.length_drop, hm.1]
    omega
  · intro row hrow
    rw [List.mem_map] at hrow
    obtain ⟨row0, hmem, rfl⟩ := hrow
    have hlen := hm.2 row0 (List.mem_of_mem_drop (List.mem_of_mem_take hmem))
    simp only [List.length_take, List.length_drop, hlen]
    omega

theorem Region_of_inside {α : Type} (m : List (List α)) (H W : Nat) (x0 y0 x1 y1 : Int)
    (hm : HasDims m H W) (hH : 0 < H)
    (hx0 : 0 ≤ x0) (hx : x0 ≤ x1) (hx1 : x1 ≤ (W : Int))
    (hy0 : 0 ≤ y0) (hy : y0 ≤ y1) (hy1 : y1 ≤ (H : Int)) :
    ∃ crop, Region m (Rect x0 y0 x1 y1) = .ok crop ∧
      HasDims crop (y1 - y0).toNat (x1 - x0).toNat := by
  rw [Rect_of_le x0 y0 x1 y1 hx hy]
  have hc := Cols_of_HasDims m H W hm hH
  have hr := Rows_of_HasDims m H W hm
  unfold Region
  simp only [hc, hr]
  rw [if_pos (by omega)]
  exact ⟨_, rfl, HasDims_crop m H W _ _ _ _ hm (by omega) (by omega)⟩

theorem Region_error {α : Type} (m : List (List α)) (rio : Rectangle) (e : Err)
    (h : Region m rio = .error e) : e = Err.nativeAssertion := by
  unfold Region at h
  simp only [] at h
  split at h
  · cases h
  · cases h; rfl

theorem size_of_HasDims {α : Type} (m : List (List α)) (H W : Nat) (hm : HasDims m H W) :
    Cols m * Rows m = W * H := by
  cases m with
  | nil =>
    have : H = 0 := by simpa using hm.1.symm
    simp [Cols, Rows, this]
  | cons row rest =>
    have h1 := hm.2 row (List.mem_cons_self _ _)
    have h2 := hm.1
    simp only [Cols, Rows, h1, h2]

theorem HasDims_self {α : Type} (m : List (List α)) (H W : Nat) (hm : HasDims m H W) :
    HasDims m (Rows m) (Cols m) := by
  cases m with
  | nil => exact ⟨rfl, by simp⟩
  | cons row rest =>
    refine ⟨rfl, fun r hr => ?_⟩
    simp only [Cols]
    rw [hm.2 r hr, hm.2 row (List.mem_cons_self _ _)]

/-! ## The region check -/

/-- C4 (as amended): for a non-empty image of width `W` and height `H`,
`getCloudsPercentage` fails with the invalid-cropping error exactly when the rectangle
leaves the image on one of the four checked sides: `x0 < 0`, `y0 < 0`, `x1 > W` or
`y1 > H`. -/
theorem getCloudsPercentage_invalidCropping_iff (rnd : ℚ → ℚ) (cvt : Vec3b → Vec3b) (img : Image)
    (low mid high : RadarIntensity) (x0 y0 x1 y1 : Int) (saveImage : Bool) (H W : Nat)
    (himg : HasDims img H W) (hH : 0 < H) :
    getCloudsPercentage rnd cvt (.ok img) low mid high x0 y0 x1 y1 saveImage =
        .error Err.invalidCropping ↔
      (x0 < 0 ∨ y0 < 0 ∨ x1 > (W : Int) ∨ y1 > (H : Int)) := by
  obtain ⟨ml, mm, mh, _, _, _, _, heq⟩ :=
    getCloudsPercentage_eq rnd cvt img low mid high x0 y0 x1 y1 saveImage H W himg hH
  rw [heq]
  by_cases hc : x0 < 0 ∨ y0 < 0 ∨ x1 > (W : Int) ∨ y1 > (H : Int)
  · simp [hc]
  · rw [if_neg hc]
    refine ⟨fun h => ?_, fun h => absurd h hc⟩
    cases hreg : Region (Add (Add ml mm) mh) (Rect x0 y0 x1 y1) with
    | error e =>
      have he := Region_error _ _ e hreg
      rw [hreg, he] at h
      simp [Except.map] at h
    | ok crop =>
      rw [hreg] at h
      simp [Except.map] at h

/-- Witness of C4 (as amended): a 1×1 image and a rectangle that ends at `x1 = 2`. -/
theorem getCloudsPercentage_invalidCropping_iff_witness :
    getCloudsPercentage roundF64 cvtGrey (.ok [[⟨0, 0, 0⟩]]) RadarIntensityLow RadarIntensityMid
        RadarIntensityHigh 0 0 2 1 false = .error Err.invalidCropping ↔
      ((0 : Int) < 0 ∨ (0 : Int) < 0 ∨ (2 : Int) > ((1 : Nat) : Int) ∨
        (1 : Int) > ((1 : Nat) : Int)) :=
  getCloudsPercentage_invalidCropping_iff roundF64 cvtGrey [[⟨0, 0, 0⟩]] RadarIntensityLow
    RadarIntensityMid RadarIntensityHigh 0 0 2 1 false 1 1 (by decide) (by decide)

/-- C4, counterexample: on a 1×1 image the rectangle `(x0, y0, x1, y1) = (1, 0, 0, 1)`
violates `0 <= x0 < x1 <= W` (here `x0 > x1`), yet it passes the bounds check of
`getCloudsPercentage`; `image.Rect` swaps the two abscissas, the whole image is cropped and
a percentage is returned instead of the invalid-cropping error. -/
theorem getCloudsPercentage_swapped_roi_not_rejected :
    HasDims ([[⟨0, 0, 0⟩]] : Image) 1 1 ∧
    ¬ ((0 : Int) ≤ 1 ∧ (1 : Int) < 0 ∧ (0 : Int) ≤ ((1 : Nat) : Int)) ∧
    getCloudsPercentage roundF64 cvtGrey (.ok [[⟨0, 0, 0⟩]]) RadarIntensityLow RadarIntensityMid
        RadarIntensityHigh 1 0 0 1 false = .ok (F64.num 0) ∧
    getCloudsPercentage roundF64 cvtGrey (.ok [[⟨0, 0, 0⟩]]) RadarIntensityLow RadarIntensityMid
        RadarIntensityHigh 1 0 0 1 false ≠ .error Err.invalidCropping := by
  have h1 : getCloudsPercentage roundF64 cvtGrey (.ok [[⟨0, 0, 0⟩]]) RadarIntensityLow
      RadarIntensityMid RadarIntensityHigh 1 0 0 1 false = .ok (getWhitePercentage roundF64 [[0]]) := rfl
  have h2 : getWhitePercentage roundF64 [[0]] = F64.num 0 := by
    simp [getWhitePercentage, fdiv, fmul, Cols, Rows, CountNonZero, roundF64_zero]
  refine ⟨by decide, by decide, ?_, ?_⟩
  · rw [h1, h2]
  · rw [h1, h2]
    intro h
    cases h

/-- C5: for an image of width `W` and height `H` and a rectangle that starts at `(x0, y0)`
with `0 <= x0 < W` and `0 <= y0 < H`: with `x1 = W` and `y1 = H` the bounds check passes,
the crop of `(H - y0) × (W - x0)` cells is taken and a number is returned; and every
rectangle with `x1 = W + 1` makes the function return the invalid-cropping error. -/
theorem getCloudsPercentage_upper_bounds (rnd : ℚ → ℚ) (cvt : Vec3b → Vec3b) (img : Image)
    (low mid high : RadarIntensity) (x0 y0 : Int) (saveImage : Bool) (H W : Nat)
    (himg : HasDims img H W)
    (hx0 : 0 ≤ x0) (hx : x0 < (W : Int)) (hy0 : 0 ≤ y0) (hy : y0 < (H : Int)) :
    (∃ maskLow maskMid maskHigh maskCropped q,
        getDBzMask cvt img low = .ok maskLow ∧ getDBzMask cvt img mid = .ok maskMid ∧
        getDBzMask cvt img high = .ok maskHigh ∧
        Region (Add (Add maskLow maskMid) maskHigh) (Rect x0 y0 (W : Int) (H : Int)) =
          .ok maskCropped ∧
        HasDims maskCropped (H - y0.toNat) (W - x0.toNat) ∧
        getWhitePercentage rnd maskCropped = F64.num q ∧
        getCloudsPercentage rnd cvt (.ok img) low mid high x0 y0 (W : Int) (H : Int) saveImage =
          .ok (F64.num q)) ∧
    ∀ a0 b0 b1 : Int,
      getCloudsPercentage rnd cvt (.ok img) low mid high a0 b0 ((W : Int) + 1) b1 saveImage =
        .error Err.invalidCropping := by
  have hH : 0 < H := by omega
  constructor
  · obtain ⟨ml, mm, mh, hl, hm, hh, hdim, heq⟩ :=
      getCloudsPercentage_eq rnd cvt img low mid high x0 y0 (W : Int) (H : Int) saveImage H W
        himg hH
    obtain ⟨crop, hreg, hcrop⟩ := Region_of_inside (Add (Add ml mm) mh) H W x0 y0
      (W : Int) (H : Int) hdim hH hx0 (le_of_lt hx) (le_refl _) hy0 (le_of_lt hy) (le_refl _)
    have hd1 : ((H : Int) - y0).toNat = H - y0.toNat := by omega
    have hd2 : ((W : Int) - x0).toNat = W - x0.toNat := by omega
    rw [hd1, hd2] at hcrop
    have hsize := size_of_HasDims crop _ _ hcrop
    have hpos : 0 < Cols crop * Rows crop := by
      rw [hsize]
      exact Nat.mul_pos (by omega) (by omega)
    refine ⟨ml, mm, mh, crop, _, hl, hm, hh, hreg, hcrop,
      getWhitePercentage_of_pos rnd crop hpos, ?_⟩
    rw [heq, if_neg (by omega), hreg]
    simp only [Except.map]
    rw [getWhitePercentage_of_pos rnd crop hpos]
  · intro a0 b0 b1
    obtain ⟨ml, mm, mh, hl, hm, hh, hdim, heq⟩ :=
      getCloudsPercentage_eq rnd cvt img low mid high a0 b0 ((W : Int) + 1) b1 saveImage H W
        himg hH
    rw [heq, if_pos (by omega)]

/-- Witness of C5: a 2×2 image with a rectangle that starts at `(1, 1)`. -/
theorem getCloudsPercentage_upper_bounds_witness :
    (∃ maskLow maskMid maskHigh maskCropped q,
        getDBzMask cvtGrey [[⟨0, 0, 0⟩, ⟨0, 0, 0⟩], [⟨0, 0, 0⟩, ⟨0, 0, 0⟩]]
          RadarIntensityLow = .ok maskLow ∧
        getDBzMask cvtGrey [[⟨0, 0, 0⟩, ⟨0, 0, 0⟩], [⟨0, 0, 0⟩, ⟨0, 0, 0⟩]]
          RadarIntensityMid = .ok maskMid ∧
        getDBzMask cvtGrey [[⟨0, 0, 0⟩, ⟨0, 0, 0⟩], [⟨0, 0, 0⟩, ⟨0, 0, 0⟩]]
          RadarIntensityHigh = .ok maskHigh ∧
        Region (Add (Add maskLow maskMid) maskHigh)
          (Rect 1 1 ((2 : Nat) : Int) ((2 : Nat) : Int)) = .ok maskCropped ∧
        HasDims maskCropped (2 - (1 : Int).toNat) (2 - (1 : Int).toNat) ∧
        getWhitePercentage roundF64 maskCropped = F64.num q ∧
        getCloudsPercentage roundF64 cvtGrey (.ok [[⟨0, 0, 0⟩, ⟨0, 0, 0⟩], [⟨0, 0, 0⟩, ⟨0, 0, 0⟩]])
          RadarIntensityLow RadarIntensityMid RadarIntensityHigh 1 1 ((2 : Nat) : Int)
          ((2 : Nat) : Int) false = .ok (F64.num q)) ∧
    ∀ a0 b0 b1 : Int,
      getCloudsPercentage roundF64 cvtGrey (.ok [[⟨0, 0, 0⟩, ⟨0, 0, 0⟩], [⟨0, 0, 0⟩, ⟨0, 0, 0⟩]])
        RadarIntensityLow RadarIntensityMid RadarIntensityHigh a0 b0 (((2 : Nat) : Int) + 1)
        b1 false = .error Err.invalidCropping :=
  getCloudsPercentage_upper_bounds roundF64 cvtGrey [[⟨0, 0, 0⟩, ⟨0, 0, 0⟩], [⟨0, 0, 0⟩, ⟨0, 0, 0⟩]]
    RadarIntensityLow RadarIntensityMid RadarIntensityHigh 1 1 false 2 2
    (by decide) (by decide) (by decide) (by decide) (by decide)

/-! ## Empty regions -/

theorem getWhitePercentage_empty (rnd : ℚ → ℚ) (m : Mask) (hgrid : HasDims m (Rows m) (Cols m))
    (hzero : Cols m * Rows m = 0) : getWhitePercentage rnd m = F64.nan := by
  have hle := CountNonZero_le m _ _ hgrid
  rw [Nat.mul_comm, hzero] at hle
  have hcount : CountNonZero m = 0 := Nat.le_zero.mp hle
  unfold getWhitePercentage fdiv
  simp only []
  rw [if_pos hzero, if_pos hcount]
  rfl

/-- C7, counterexample: on the empty mask `getWhitePercentage` returns NaN, and on a 1×1
image with the rectangle `(0, 0, 0, 0)` (an empty crop that passes the bounds check)
`getCloudsPercentage` returns NaN with no error. -/
theorem coverage_of_empty_region_not_an_error :
    Cols ([] : Mask) * Rows ([] : Mask) = 0 ∧
    getWhitePercentage roundF64 [] = F64.nan ∧
    getCloudsPercentage roundF64 cvtGrey (.ok [[⟨0, 0, 0⟩]]) RadarIntensityLow RadarIntensityMid
        RadarIntensityHigh 0 0 0 0 false = .ok F64.nan ∧
    ¬ ∃ e, getCloudsPercentage roundF64 cvtGrey (.ok [[⟨0, 0, 0⟩]]) RadarIntensityLow
        RadarIntensityMid RadarIntensityHigh 0 0 0 0 false = .error e := by
  have h1 : getCloudsPercentage roundF64 cvtGrey (.ok [[⟨0, 0, 0⟩]]) RadarIntensityLow
      RadarIntensityMid RadarIntensityHigh 0 0 0 0 false = .ok F64.nan := rfl
  refine ⟨by decide, by decide, h1, ?_⟩
  rintro ⟨e, he⟩
  rw [h1] at he
  cases he

/-- C7 (as amended): for a mask (a dense grid) with `width * height = 0`,
`getWhitePercentage` returns NaN, the `float64` quotient `0 / 0`, and signals nothing; and
for a non-empty image and a rectangle inside it with `x0 = x1` or `y0 = y1`,
`getCloudsPercentage` returns that NaN with no error. -/
theorem coverage_of_empty_region (rnd : ℚ → ℚ) (m : Mask) (cvt : Vec3b → Vec3b) (img : Image)
    (low mid high : RadarIntensity) (x0 y0 x1 y1 : Int) (saveImage : Bool) (H W : Nat)
    (hgrid : HasDims m (Rows m) (Cols m)) (hzero : Cols m * Rows m = 0)
    (himg : HasDims img H W) (hH : 0 < H)
    (hx0 : 0 ≤ x0) (hx : x0 ≤ x1) (hx1 : x1 ≤ (W : Int))
    (hy0 : 0 ≤ y0) (hy : y0 ≤ y1) (hy1 : y1 ≤ (H : Int))
    (hempty : x0 = x1 ∨ y0 = y1) :
    getWhitePercentage rnd m = F64.nan ∧
    getCloudsPercentage rnd cvt (.ok img) low mid high x0 y0 x1 y1 saveImage = .ok F64.nan := by
  refine ⟨getWhitePercentage_empty rnd m hgrid hzero, ?_⟩
  obtain ⟨ml, mm, mh, _, _, _, hdim, heq⟩ :=
    getCloudsPercentage_eq rnd cvt img low mid high x0 y0 x1 y1 saveImage H W himg hH
  obtain ⟨crop, hreg, hcrop⟩ := Region_of_inside (Add (Add ml mm) mh) H W x0 y0 x1 y1 hdim hH
    hx0 hx hx1 hy0 hy hy1
  have hsize := size_of_HasDims crop _ _ hcrop
  have hz : Cols crop * Rows crop = 0 := by
    rw [hsize]
    rcases hempty with h | h
    · have : (x1 - x0).toNat = 0 := by omega
      rw [this, Nat.zero_mul]
    · have : (y1 - y0).toNat = 0 := by omega
      rw [this, Nat.mul_zero]
  rw [heq, if_neg (by omega), hreg]
  simp only [Except.map]
  rw [getWhitePercentage_empty rnd crop (HasDims_self crop _ _ hcrop) hz]

/-- Witness of C7 (as amended): the mask with one row and no column, and a 1×1 image with
the rectangle `(0, 0, 0, 1)`. -/
theorem coverage_of_empty_region_witness :
    getWhitePercentage roundF64 [[]] = F64.nan ∧
    getCloudsPercentage roundF64 cvtGrey (.ok [[⟨0, 0, 0⟩]]) RadarIntensityLow RadarIntensityMid
        RadarIntensityHigh 0 0 0 1 false = .ok F64.nan :=
  coverage_of_empty_region roundF64 [[]] cvtGrey [[⟨0, 0, 0⟩]] RadarIntensityLow RadarIntensityMid
    RadarIntensityHigh 0 0 0 1 false 1 1 (by decide) (by decide) (by decide) (by decide)
    (by decide) (by decide) (by decide) (by decide) (by decide) (by decide) (by decide)

/-! ## The configured region -/

/-- C10 (as amended): with the configured rectangle `(240, 360, 540, 560)` and the
configured bands, for every image of width at least 540 and height at least 560 the cropped
mask has 200 rows of 300 cells, 60000 cells in all, so the division is by a non-zero size;
`getCloudsPercentage` returns the `float64` value of `(count / 60000) * 100`, each
operation rounded, where `count` is the number of non-zero cells of the cropped mask; with
the arithmetic taken as exact this value is `count / 600`. -/
theorem getCloudsPercentage_configured (rnd : ℚ → ℚ) (cvt : Vec3b → Vec3b) (img : Image)
    (saveImage : Bool) (H W : Nat)
    (himg : HasDims img H W) (hW : 540 ≤ W) (hH : 560 ≤ H) :
    ∃ maskLow maskMid maskHigh maskCropped,
      getDBzMask cvt img RadarIntensityLow = .ok maskLow ∧
      getDBzMask cvt img RadarIntensityMid = .ok maskMid ∧
      getDBzMask cvt img RadarIntensityHigh = .ok maskHigh ∧
      Region (Add (Add maskLow maskMid) maskHigh) (Rect startX startY endX endY) =
        .ok maskCropped ∧
      HasDims maskCropped 200 300 ∧
      Cols maskCropped * Rows maskCropped = 60000 ∧
      getCloudsPercentage rnd cvt (.ok img) RadarIntensityLow RadarIntensityMid
        RadarIntensityHigh startX startY endX endY saveImage =
          .ok (F64.num (rnd (rnd ((CountNonZero maskCropped : ℚ) / 60000) * 100))) ∧
      getCloudsPercentage id cvt (.ok img) RadarIntensityLow RadarIntensityMid
        RadarIntensityHigh startX startY endX endY saveImage =
          .ok (F64.num ((CountNonZero maskCropped : ℚ) / 600)) := by
  have hH0 : 0 < H := by omega
  have e1 : startX = 240 := rfl
  have e2 : startY = 360 := rfl
  have e3 : endX = 540 := rfl
  have e4 : endY = 560 := rfl
  obtain ⟨ml, mm, mh, hl, hm, hh, hdim, heq⟩ :=
    getCloudsPercentage_eq rnd cvt img RadarIntensityLow RadarIntensityMid RadarIntensityHigh
      startX startY endX endY saveImage H W himg hH0
  obtain ⟨ml2, mm2, mh2, hl2, hm2, hh2, _, heq2⟩ :=
    getCloudsPercentage_eq id cvt img RadarIntensityLow RadarIntensityMid RadarIntensityHigh
      startX startY endX endY saveImage H W himg hH0
  rw [hl] at hl2
  rw [hm] at hm2
  rw [hh] at hh2
  cases hl2
  cases hm2
  cases hh2
  obtain ⟨crop, hreg, hcrop⟩ := Region_of_inside (Add (Add ml mm) mh) H W
    startX startY endX endY hdim hH0
    (by rw [e1]; decide) (by rw [e1, e3]; decide) (by rw [e3]; omega)
    (by rw [e2]; decide) (by rw [e2, e4]; decide) (by rw [e4]; omega)
  have hd1 : (endY - startY).toNat = 200 := by rw [e2, e4]; rfl
  have hd2 : (endX - startX).toNat = 300 := by rw [e1, e3]; rfl
  rw [hd1, hd2] at hcrop
  have hsize : Cols crop * Rows crop = 60000 := size_of_HasDims crop _ _ hcrop
  have hpos : 0 < Cols crop * Rows crop := by rw [hsize]; norm_num
  have hguard : ¬ (startX < 0 ∨ startY < 0 ∨ endX > (W : Int) ∨ endY > (H : Int)) := by
    rw [e1, e2, e3, e4]; omega
  have hcast : (((60000 : Nat) : ℚ)) = 60000 := by norm_num
  refine ⟨ml, mm, mh, crop, hl, hm, hh, hreg, hcrop, hsize, ?_, ?_⟩
  · rw [heq, if_neg hguard, hreg]
    simp only [Except.map]
    rw [getWhitePercentage_of_pos rnd crop hpos, hsize, hcast]
  · rw [heq2, if_neg hguard, hreg]
    simp only [Except.map]
    rw [getWhitePercentage_of_pos id crop hpos, hsize, hcast]
    have hq : (CountNonZero crop : ℚ) / 60000 * 100 = (CountNonZero crop : ℚ) / 600 := by
      ring
    simp only [id]
    rw [hq]

theorem HasDims_greenImage : HasDims greenImage 560 540 := by
  decide!

theorem greenImage_crop :
    (getDBzMask cvtGreyGreen greenImage RadarIntensityLow).toOption.bind (fun l =>
      (getDBzMask cvtGreyGreen greenImage RadarIntensityMid).toOption.bind (fun m =>
        (getDBzMask cvtGreyGreen greenImage RadarIntensityHigh).toOption.bind (fun h =>
          (Region (Add (Add l m) h) (Rect startX startY endX endY)).toOption))) =
      some greenCrop := by
  decide!

theorem CountNonZero_greenCrop : CountNonZero greenCrop = 17 := by
  decide!

/-- Witness of C10 (as amended): the image `greenImage`, which has 17 foreground pixels in
the configured region, in the `float64` arithmetic of the program. -/
theorem getCloudsPercentage_configured_witness :
    ∃ maskLow maskMid maskHigh maskCropped,
      getDBzMask cvtGreyGreen greenImage RadarIntensityLow = .ok maskLow ∧
      getDBzMask cvtGreyGreen greenImage RadarIntensityMid = .ok maskMid ∧
      getDBzMask cvtGreyGreen greenImage RadarIntensityHigh = .ok maskHigh ∧
      Region (Add (Add maskLow maskMid) maskHigh) (Rect startX startY endX endY) =
        .ok maskCropped ∧
      HasDims maskCropped 200 300 ∧
      Cols maskCropped * Rows maskCropped = 60000 ∧
      getCloudsPercentage roundF64 cvtGreyGreen (.ok greenImage) RadarIntensityLow
        RadarIntensityMid RadarIntensityHigh startX startY endX endY false =
          .ok (F64.num
            (roundF64 (roundF64 ((CountNonZero maskCropped : ℚ) / 60000) * 100))) ∧
      getCloudsPercentage id cvtGreyGreen (.ok greenImage) RadarIntensityLow
        RadarIntensityMid RadarIntensityHigh startX startY endX endY false =
          .ok (F64.num ((CountNonZero maskCropped : ℚ) / 600)) :=
  getCloudsPercentage_configured roundF64 cvtGreyGreen greenImage false 560 540
    HasDims_greenImage (le_refl _) (le_refl _)

/-- C10, counterexample: the image `greenImage` has 560 rows of 540 pixels and passes the
bounds check; its cropped mask is `greenCrop`, with 60000 cells of which 17 are non-zero.
The program returns `(17 / 60000) * 100` computed in `float64`, that is
`8166527324298500 / 2^58`, which is neither the rational `17 / 600` nor the `float64`
nearest to it, `8166527324298499 / 2^58`. -/
theorem getCloudsPercentage_configured_rounding :
    HasDims greenImage 560 540 ∧
    (∃ maskLow maskMid maskHigh,
      getDBzMask cvtGreyGreen greenImage RadarIntensityLow = .ok maskLow ∧
      getDBzMask cvtGreyGreen greenImage RadarIntensityMid = .ok maskMid ∧
      getDBzMask cvtGreyGreen greenImage RadarIntensityHigh = .ok maskHigh ∧
      Region (Add (Add maskLow maskMid) maskHigh) (Rect startX startY endX endY) =
        .ok greenCrop) ∧
    CountNonZero greenCrop = 17 ∧
    getCloudsPercentage roundF64 cvtGreyGreen (.ok greenImage) RadarIntensityLow
      RadarIntensityMid RadarIntensityHigh startX startY endX endY false =
        .ok (F64.num (8166527324298500 / 2 ^ 58)) ∧
    (8166527324298500 / 2 ^ 58 : ℚ) ≠ 17 / 600 ∧
    roundF64 (17 / 600) = 8166527324298499 / 2 ^ 58 ∧
    (8166527324298500 / 2 ^ 58 : ℚ) ≠ roundF64 (17 / 600) := by
  obtain ⟨ml, mm, mh, hl, hm, hh, _, heq⟩ :=
    getCloudsPercentage_eq roundF64 cvtGreyGreen greenImage RadarIntensityLow
      RadarIntensityMid RadarIntensityHigh startX startY endX endY false 560 540
      HasDims_greenImage (by decide)
  have hchain := greenImage_crop
  rw [hl, hm, hh] at hchain
  simp only [Except.toOption, Option.some_bind] at hchain
  have hreg : Region (Add (Add ml mm) mh) (Rect startX startY endX endY) = .ok greenCrop := by
    cases hr : Region (Add (Add ml mm) mh) (Rect startX startY endX endY) with
    | error e => rw [hr] at hchain; simp at hchain
    | ok c => rw [hr] at hchain; simp at hchain; rw [hchain]
  have hsize : Cols greenCrop * Rows greenCrop = 60000 := by decide!
  have hpos : 0 < Cols greenCrop * Rows greenCrop := by rw [hsize]; norm_num
  have hguard : ¬ (startX < 0 ∨ startY < 0 ∨ endX > ((540 : Nat) : Int) ∨
      endY > ((560 : Nat) : Int)) := by decide
  have hval : getWhitePercentage roundF64 greenCrop =
      F64.num (8166527324298500 / 2 ^ 58) := by
    rw [getWhitePercentage_of_pos roundF64 greenCrop hpos, hsize, CountNonZero_greenCrop]
    have hc : (((17 : Nat) : ℚ)) / (((60000 : Nat) : ℚ)) = 17 / 60000 := by norm_num
    rw [hc, roundF64_17_60000, roundF64_times_100]
  refine ⟨HasDims_greenImage, ⟨ml, mm, mh, hl, hm, hh, hreg⟩, CountNonZero_greenCrop, ?_,
    by norm_num, roundF64_17_600, ?_⟩
  · rw [heq, if_neg hguard, hreg]
    simp only [Except.map]
    rw [hval]
  · rw [roundF64_17_600]
    norm_num

end WeatherRadar
